import Mathlib

/-!
# Verification of the matching-engine orderbook storage, nonce provider,
# network configuration and marketplace enablement table

A shallow embedding of the core of the `matching-engine` repository:

* `OrderbookStorage.save` and its index-set derivation `_getOrderItemSets`
  (orderbook storage source file), modelled as a pure state transformer over
  a Redis-like store `RedisState` (plain sets, sorted sets, string keys);
* `NonceProvider` (`src/config/index.ts`): `_checkSignal`, `getNonce`,
  `_incrementNonce`, `_saveNonce` (debounce flag only) and `_loadNonce`,
  modelled as explicit state passing over `NPState`;
* `getNetworkConfig` (`src/config/index.ts`): the broadcaster selection,
  keeping only the data the claims mention;
* the static marketplace enablement table
  (`src/lib/match-executor/order/config.ts`).

Numbers that are JS floats in the source (`startPriceEth`, sorted-set
scores) are modelled as rationals; `BigNumber` nonces as integers.
-/

namespace MatchingEngine

/-! ## Redis-like store

`sets` models Redis plain sets (`sadd`/`srem`/`smembers`/`del`),
`zsets` models sorted sets as partial score assignments
(`zadd`/`zrem`), `strings` models plain keys (`set`/`del`). -/

structure RedisState where
  sets : String → List String
  zsets : String → String → Option ℚ
  strings : String → Option String

def sadd (s : RedisState) (key member : String) : RedisState :=
  { s with sets := fun k => if k = key then (s.sets k).insert member else s.sets k }

def srem (s : RedisState) (key member : String) : RedisState :=
  { s with
    sets := fun k => if k = key then (s.sets k).filter (fun x => x ≠ member) else s.sets k }

def delSet (s : RedisState) (key : String) : RedisState :=
  { s with sets := fun k => if k = key then [] else s.sets k }

def zadd (s : RedisState) (key : String) (score : ℚ) (member : String) : RedisState :=
  { s with zsets := fun k m => if k = key ∧ m = member then some score else s.zsets k m }

def zrem (s : RedisState) (key member : String) : RedisState :=
  { s with zsets := fun k m => if k = key ∧ m = member then none else s.zsets k m }

def setString (s : RedisState) (key value : String) : RedisState :=
  { s with strings := fun k => if k = key then some value else s.strings k }

def delString (s : RedisState) (key : String) : RedisState :=
  { s with strings := fun k => if k = key then none else s.strings k }

/-! ## Key derivation (`OrderbookStorage`, version `v1`)

Each function mirrors the template-string builder of the same name in the
source; `chainRoot` is the shared `orderbook:${version}:chain:${chainId}:`
portion. -/

def chainRoot (chainId : String) : String :=
  "orderbook:v1:chain:" ++ chainId ++ ":"

def getOrderMatchesSet (chainId orderId : String) : String :=
  chainRoot chainId ++ "order-matches:" ++ orderId

def matchesByGasPriceOrderedSetKey (chainId : String) : String :=
  chainRoot chainId ++ "order-matches:by-gas-price"

def getFullMatchKey (chainId matchId : String) : String :=
  chainRoot chainId ++ "order-matches:" ++ matchId ++ ":full"

def storedOrdersSetKey (chainId : String) : String :=
  chainRoot chainId ++ "orders"

def activeOrdersOrderedSetKey (chainId : String) : String :=
  chainRoot chainId ++ "order-status:active"

def executedOrdersOrderedSetKey (chainId : String) : String :=
  chainRoot chainId ++ "order-status:executed"

def getFullOrderKey (chainId id : String) : String :=
  chainRoot chainId ++ "orders:" ++ id ++ ":full"

/-- Constraint record for the per-token set builders; the source passes a
`{ complication; currency; collection; tokenId }` object. -/
structure TokenConstraints where
  complication : String
  currency : String
  collection : String
  tokenId : String

/-- Constraint record for the per-collection set builders; the source passes
a `{ complication; currency; collection }` object. -/
structure CollectionConstraints where
  complication : String
  currency : String
  collection : String

/-- `getTokenListingsSet`: scope `token-orders`, side `sell`.  As in the
source, the `currency` constraint is not part of the key. -/
def getTokenListingsSet (c : TokenConstraints) : String :=
  "scope:token-orders:complication:" ++ c.complication ++ ":side:sell:collection:"
    ++ c.collection ++ ":tokenId:" ++ c.tokenId

/-- `getTokenOffersSet`: scope `token-orders`, side `buy`. -/
def getTokenOffersSet (c : TokenConstraints) : String :=
  "scope:token-orders:complication:" ++ c.complication ++ ":side:buy:collection:"
    ++ c.collection ++ ":tokenId:" ++ c.tokenId

/-- `getCollectionTokenListingsSet`: scope `collection-token-orders`, side `sell`. -/
def getCollectionTokenListingsSet (c : CollectionConstraints) : String :=
  "scope:collection-token-orders:complication:" ++ c.complication
    ++ ":side:sell:collection:" ++ c.collection

/-- `getCollectionTokenOffersSet`: scope `collection-token-orders`, side `buy`.
The source takes a tokenId constraint here but does not use it in the key. -/
def getCollectionTokenOffersSet (c : TokenConstraints) : String :=
  "scope:collection-token-orders:complication:" ++ c.complication
    ++ ":side:buy:collection:" ++ c.collection

/-- `getCollectionWideOffersSet`: scope `collection-wide-orders`, side `buy`. -/
def getCollectionWideOffersSet (c : CollectionConstraints) : String :=
  "scope:collection-wide-orders:complication:" ++ c.complication
    ++ ":side:buy:collection:" ++ c.collection

/-! ## Order model

Exactly the attributes `OrderbookStorage` consumes from the `Order` object:
`order.params.side/complication/currency/startPriceEth`, the single order
item (`collection` plus optional `tokenId`), the order id and the status of
the incoming `OrderData` entry. -/

inductive Side
  | buy
  | sell
deriving DecidableEq, Repr

inductive OrderStatus
  | active
  | filled
  | cancelled
  | expired
deriving DecidableEq, Repr

inductive OrderItem
  | token (collection tokenId : String)
  | collectionWide (collection : String)
deriving DecidableEq, Repr

structure OrderData where
  id : String
  side : Side
  complication : String
  currency : String
  startPriceEth : ℚ
  item : OrderItem
  status : OrderStatus
deriving DecidableEq, Repr

/-- `_getOrderItemSets`: dispatch on `side` and whether the order item has a
`tokenId`; `sell:collection` throws `Unsupported order side`.  Returns the
list of index-set keys and the score (`startPriceEth`). -/
def getOrderItemSets (o : OrderData) : Except String (List String × ℚ) :=
  match o.side, o.item with
  | .buy, .token coll tok =>
    .ok ([getTokenOffersSet ⟨o.complication, o.currency, coll, tok⟩,
          getCollectionTokenOffersSet ⟨o.complication, o.currency, coll, tok⟩],
         o.startPriceEth)
  | .buy, .collectionWide coll =>
    .ok ([getCollectionWideOffersSet ⟨o.complication, o.currency, coll⟩],
         o.startPriceEth)
  | .sell, .token coll tok =>
    .ok ([getTokenListingsSet ⟨o.complication, o.currency, coll, tok⟩,
          getCollectionTokenListingsSet ⟨o.complication, o.currency, coll⟩],
         o.startPriceEth)
  | .sell, .collectionWide _ => .error "Unsupported order side"

/-- Stand-in for `JSON.stringify(item)`: a concrete serialization of the
fields the model keeps; the claims only depend on the payload being
present or absent. -/
def serializeOrder (o : OrderData) : String :=
  "id:" ++ o.id ++ ";complication:" ++ o.complication ++ ";currency:" ++ o.currency

/-! ## `OrderbookStorage.save`

One entry of the batch, as the sequential effect of the queued transaction.
The active branch: `sadd orders`, `zadd active -1 id`, `set full`, and a
`zadd` per index set scored by `startPriceEth`.  The non-active branch:
the symmetric removals, then the cascade over the members of
`order-matches:{id}` read from the pre-transaction store: delete each full
match, remove each match id from the gas-price sorted set, `srem` the
order id from `order-matches:{matchId}` (a key derived from the match id),
and finally delete `order-matches:{id}`. -/

def applyActiveWrites (chainId : String) (s : RedisState) (o : OrderData)
    (sets : List String) (score : ℚ) : RedisState :=
  sets.foldl (fun st k => zadd st k score o.id)
    (setString
      (zadd (sadd s (storedOrdersSetKey chainId) o.id)
        (activeOrdersOrderedSetKey chainId) (-1) o.id)
      (getFullOrderKey chainId o.id) (serializeOrder o))

def applyRemovalWrites (chainId : String) (s : RedisState) (o : OrderData)
    (sets : List String) : RedisState :=
  delSet
    ((s.sets (getOrderMatchesSet chainId o.id)).foldl
      (fun st m => srem st (getOrderMatchesSet chainId m) o.id)
      ((s.sets (getOrderMatchesSet chainId o.id)).foldl
        (fun st m => zrem st (matchesByGasPriceOrderedSetKey chainId) m)
        ((s.sets (getOrderMatchesSet chainId o.id)).foldl
          (fun st m => delString st (getFullMatchKey chainId m))
          (sets.foldl (fun st k => zrem st k o.id)
            (delString
              (zrem (srem s (storedOrdersSetKey chainId) o.id)
                (activeOrdersOrderedSetKey chainId) o.id)
              (getFullOrderKey chainId o.id))))))
    (getOrderMatchesSet chainId o.id)

/-- One iteration of the `save` loop body, without the surrounding
try/catch: the index-set derivation may throw before any write. -/
def saveOne (chainId : String) (s : RedisState) (o : OrderData) :
    Except String RedisState :=
  match getOrderItemSets o with
  | .error e => .error e
  | .ok (sets, score) =>
    if o.status = .active then
      .ok (applyActiveWrites chainId s o sets score)
    else
      .ok (applyRemovalWrites chainId s o sets)

/-- `save` over a batch: each entry runs in a try/catch, a failing entry is
logged and skipped and the loop continues with the store unchanged. -/
def save (chainId : String) (s : RedisState) (items : List OrderData) : RedisState :=
  items.foldl
    (fun st it =>
      match saveOne chainId st it with
      | .ok st2 => st2
      | .error _ => st) s

/-! ## Nonce provider (`src/config/index.ts`, class `NonceProvider`)

The mutable fields of the class are carried explicitly: `signal` is
`none` while `_signal` is unset (before `run()` assigns it, including when
lock acquisition failed due to contention) and `some aborted` afterwards;
`nonceLoaded` mirrors `_nonceLoaded` being assigned; `nonce` mirrors
`_nonce` (`none` before `_loadNonce` sets it); `pendingSave` mirrors the
`_pendingSave` debounce timer handle being set. -/

structure NPState where
  signal : Option Bool
  closed : Bool
  nonceLoaded : Bool
  nonce : Option Int
  pendingSave : Bool
deriving DecidableEq, Repr

/-- The state of a freshly constructed `NonceProvider` on which `run()` has
not (successfully) set the signal and loaded the nonce. -/
def initialNPState : NPState :=
  { signal := none, closed := false, nonceLoaded := false, nonce := none,
    pendingSave := false }

/-- `_checkSignal`: an unset or aborted signal throws
`Nonce provider lock expired`; otherwise a closed provider throws
`Nonce provider closed`. -/
def checkSignal (st : NPState) : Except String Unit :=
  match st.signal with
  | none => .error "Nonce provider lock expired"
  | some aborted =>
    if aborted then .error "Nonce provider lock expired"
    else if st.closed then .error "Nonce provider closed"
    else .ok ()

/-- `_saveNonce`: schedules the debounced persistence write when no timer is
pending; only the debounce flag matters to the in-memory state. -/
def saveNonceSchedule (st : NPState) : NPState :=
  if st.pendingSave then st else { st with pendingSave := true }

/-- `_incrementNonce`: throws when `_nonce` is unset, otherwise adds 1,
schedules the debounced save and returns the new value. -/
def incrementNonce (st : NPState) : Except String Int × NPState :=
  match st.nonce with
  | none => (.error "Nonce provider not running", st)
  | some n =>
    (.ok (n + 1), saveNonceSchedule { st with nonce := some (n + 1) })

/-- `getNonce`: `_checkSignal`, then throw `Nonce provider not running` if
`_nonceLoaded` was never assigned, then `_incrementNonce`. -/
def getNonce (st : NPState) : Except String Int × NPState :=
  match checkSignal st with
  | .error e => (.error e, st)
  | .ok _ =>
    if st.nonceLoaded then incrementNonce st
    else (.error "Nonce provider not running", st)

/-- The persisted `NonceProviderDoc` of the document store. -/
structure NonceProviderDoc where
  chainId : String
  matchExecutorAddress : String
  exchangeAddress : String
  nonce : Int
  updatedAt : Nat
  createdAt : Nat
deriving DecidableEq, Repr

/-- `_loadNonce`: read the persisted snapshot and the exchange contract's
`userMinOrderNonce` watermark; when no record exists, first write an
initial record whose nonce is the watermark; the effective nonce is the
greater of the watermark and the record's nonce.  Returns the record that
is persisted after the call and the effective nonce. -/
def loadNonce (chainId account exchange : String) (snap : Option NonceProviderDoc)
    (minNonce : Int) (now : Nat) : NonceProviderDoc × Int :=
  let data : NonceProviderDoc :=
    match snap with
    | none =>
      { chainId := chainId, matchExecutorAddress := account,
        exchangeAddress := exchange, nonce := minNonce,
        updatedAt := now, createdAt := now }
    | some d => d
  let nonce := if minNonce > data.nonce then minNonce else data.nonce
  (data, nonce)

/-- The effect of an awaited `_loadNonce` on the provider state. -/
def loadNonceIntoState (st : NPState) (chainId account exchange : String)
    (snap : Option NonceProviderDoc) (minNonce : Int) (now : Nat) : NPState :=
  { st with nonce := some (loadNonce chainId account exchange snap minNonce now).2,
            nonceLoaded := true }

/-! ## Network configuration (`getNetworkConfig` in `src/config/index.ts`)

Only the data the claims mention is kept: the two flags, the broadcaster
variant that is constructed, and the flashbots options record.  Both
branches of the source construct a `ForkedNetworkBroadcaster`; the
non-forking branch carries a `TODO add flashbots` comment. -/

inductive BroadcasterKind
  | forkedNetwork
  | flashbotsRelay
deriving DecidableEq, Repr

structure FlashbotsOptions where
  blockOffset : Nat
deriving DecidableEq, Repr

structure NetworkConfig where
  isForkingEnabled : Bool
  isFlashbotsEnabled : Bool
  flashbots : Option FlashbotsOptions
  broadcaster : BroadcasterKind
deriving DecidableEq, Repr

def getNetworkConfig (forkingEnabled : Bool) : NetworkConfig :=
  if forkingEnabled then
    { isForkingEnabled := true, isFlashbotsEnabled := false,
      flashbots := none, broadcaster := .forkedNetwork }
  else
    { isForkingEnabled := false, isFlashbotsEnabled := true,
      flashbots := some { blockOffset := 2 },
      broadcaster := .forkedNetwork }

/-! ## Marketplace enablement table
(`src/lib/match-executor/order/config.ts`) -/

inductive Marketplace
  | infinity | seaport | wyvernV2 | wyvernV23 | looksRare
  | zeroexV4Erc721 | zeroexV4Erc1155 | foundation | x2y2 | rarible
  | elementErc721 | elementErc1155 | quixotic | nouns | zoraV3
  | mint | cryptopunks | sudoswap | universe | nftx | blur | forward
deriving DecidableEq, Fintype, Repr

inductive MarketOrderKind
  | singleToken | contractWide | complex | bundleAsk | tokenList
deriving DecidableEq, Fintype, Repr

/-- One entry of a marketplace's per-kind map: the `enabled` flag and the
builder, when one is configured (named by its source expression). -/
structure KindEntry where
  enabled : Bool
  builder : Option String
deriving DecidableEq, Repr

/-- The marketplace-level `enabled` flag of the `config` table. -/
def marketEnabled : Marketplace → Bool
  | .infinity => true
  | .seaport => true
  | _ => false

/-- The per-kind maps of the `config` table: `infinityConfig` lists
`single-token`, `contract-wide` and `complex`, all disabled;
`seaportConfig` enables `single-token` with the `Sdk.Seaport.Builders.SingleToken`
builder and lists `bundle-ask`, `contract-wide` and `token-list` disabled;
no other marketplace has a kinds map. -/
def kindEntry : Marketplace → MarketOrderKind → Option KindEntry
  | .infinity, .singleToken => some { enabled := false, builder := none }
  | .infinity, .contractWide => some { enabled := false, builder := none }
  | .infinity, .complex => some { enabled := false, builder := none }
  | .seaport, .singleToken =>
    some { enabled := true, builder := some "Sdk.Seaport.Builders.SingleToken" }
  | .seaport, .bundleAsk => some { enabled := false, builder := none }
  | .seaport, .contractWide => some { enabled := false, builder := none }
  | .seaport, .tokenList => some { enabled := false, builder := none }
  | _, _ => none

/-- A (marketplace, kind) pair whose entry is enabled. -/
def kindEnabled (m : Marketplace) (k : MarketOrderKind) : Bool :=
  match kindEntry m k with
  | some e => e.enabled
  | none => false

/-- A (marketplace, kind) pair whose entry is enabled and has a builder. -/
def kindEnabledWithBuilder (m : Marketplace) (k : MarketOrderKind) : Bool :=
  match kindEntry m k with
  | some e => e.enabled && e.builder.isSome
  | none => false

/-! ## Store lemmas

Pointwise effects of the primitive writes, preservation of the untouched
components, and the behaviour of the folds `save` issues. -/

lemma sadd_zsets (s : RedisState) (k m : String) : (sadd s k m).zsets = s.zsets := rfl

lemma sadd_strings (s : RedisState) (k m : String) : (sadd s k m).strings = s.strings := rfl

lemma zadd_sets (s : RedisState) (k : String) (sc : ℚ) (m : String) :
    (zadd s k sc m).sets = s.sets := rfl

lemma zadd_strings (s : RedisState) (k : String) (sc : ℚ) (m : String) :
    (zadd s k sc m).strings = s.strings := rfl

lemma zrem_sets (s : RedisState) (k m : String) : (zrem s k m).sets = s.sets := rfl

lemma zrem_strings (s : RedisState) (k m : String) : (zrem s k m).strings = s.strings := rfl

lemma setString_sets (s : RedisState) (k v : String) : (setString s k v).sets = s.sets := rfl

lemma setString_zsets (s : RedisState) (k v : String) :
    (setString s k v).zsets = s.zsets := rfl

lemma delString_sets (s : RedisState) (k : String) : (delString s k).sets = s.sets := rfl

lemma delString_zsets (s : RedisState) (k : String) : (delString s k).zsets = s.zsets := rfl

lemma srem_zsets (s : RedisState) (k m : String) : (srem s k m).zsets = s.zsets := rfl

lemma srem_strings (s : RedisState) (k m : String) : (srem s k m).strings = s.strings := rfl

lemma delSet_zsets (s : RedisState) (k : String) : (delSet s k).zsets = s.zsets := rfl

lemma delSet_strings (s : RedisState) (k : String) : (delSet s k).strings = s.strings := rfl

lemma mem_sadd_self (s : RedisState) (key m : String) : m ∈ (sadd s key m).sets key := by
  simp [sadd, List.mem_insert_iff]

lemma srem_not_mem_self (s : RedisState) (key m : String) :
    m ∉ (srem s key m).sets key := by
  simp [srem, List.mem_filter]

lemma srem_not_mem (s : RedisState) (key m k x : String) (h : x ∉ s.sets k) :
    x ∉ (srem s key m).sets k := by
  unfold srem
  dsimp only
  split
  · intro hx
    exact h (List.mem_of_mem_filter hx)
  · exact h

lemma delSet_sets_self (s : RedisState) (key : String) : (delSet s key).sets key = [] := by
  simp [delSet]

lemma delSet_not_mem (s : RedisState) (key k x : String) (h : x ∉ s.sets k) :
    x ∉ (delSet s key).sets k := by
  unfold delSet
  dsimp only
  split
  · simp
  · exact h

lemma zadd_zsets_self (s : RedisState) (key : String) (sc : ℚ) (m : String) :
    (zadd s key sc m).zsets key m = some sc := by
  simp [zadd]

lemma zadd_zsets_ne_key (s : RedisState) (key : String) (sc : ℚ) (m k' m' : String)
    (h : k' ≠ key) : (zadd s key sc m).zsets k' m' = s.zsets k' m' := by
  unfold zadd
  dsimp only
  rw [if_neg]
  intro hc
  exact h hc.1

lemma zrem_zsets_self (s : RedisState) (key m : String) :
    (zrem s key m).zsets key m = none := by
  simp [zrem]

lemma zrem_zsets_none (s : RedisState) (key m k' m' : String)
    (h : s.zsets k' m' = none) : (zrem s key m).zsets k' m' = none := by
  unfold zrem
  dsimp only
  split
  · rfl
  · exact h

lemma setString_strings_self (s : RedisState) (key v : String) :
    (setString s key v).strings key = some v := by
  simp [setString]

lemma delString_strings_self (s : RedisState) (key : String) :
    (delString s key).strings key = none := by
  simp [delString]

lemma delString_strings_none (s : RedisState) (key k' : String)
    (h : s.strings k' = none) : (delString s key).strings k' = none := by
  unfold delString
  dsimp only
  split
  · rfl
  · exact h

/-- A property preserved by every step of a fold is preserved by the fold. -/
lemma foldl_preserve {α : Type} (P : RedisState → Prop) {f : RedisState → α → RedisState}
    (h : ∀ st x, P st → P (f st x)) (l : List α) (st : RedisState) (hp : P st) :
    P (l.foldl f st) := by
  induction l generalizing st with
  | nil => exact hp
  | cons a l ih => exact ih _ (h st a hp)

lemma foldl_sets_congr {α : Type} {f : RedisState → α → RedisState}
    (h : ∀ st x, (f st x).sets = st.sets) (l : List α) (st : RedisState) :
    (l.foldl f st).sets = st.sets := by
  induction l generalizing st with
  | nil => rfl
  | cons a l ih => rw [List.foldl_cons, ih, h]

lemma foldl_zsets_congr {α : Type} {f : RedisState → α → RedisState}
    (h : ∀ st x, (f st x).zsets = st.zsets) (l : List α) (st : RedisState) :
    (l.foldl f st).zsets = st.zsets := by
  induction l generalizing st with
  | nil => rfl
  | cons a l ih => rw [List.foldl_cons, ih, h]

lemma foldl_strings_congr {α : Type} {f : RedisState → α → RedisState}
    (h : ∀ st x, (f st x).strings = st.strings) (l : List α) (st : RedisState) :
    (l.foldl f st).strings = st.strings := by
  induction l generalizing st with
  | nil => rfl
  | cons a l ih => rw [List.foldl_cons, ih, h]

lemma zaddFold_zsets_ne (keys : List String) (sc : ℚ) (oid key m : String)
    (h : ∀ k ∈ keys, k ≠ key) (st : RedisState) :
    (keys.foldl (fun st k => zadd st k sc oid) st).zsets key m = st.zsets key m := by
  induction keys generalizing st with
  | nil => rfl
  | cons a l ih =>
    rw [List.foldl_cons, ih (fun k hk => h k (List.mem_cons_of_mem a hk)),
      zadd_zsets_ne_key st a sc oid key m (h a (List.mem_cons_self a l)).symm]

lemma zaddFold_zsets_mem (keys : List String) (sc : ℚ) (oid key : String)
    (h : key ∈ keys) (st : RedisState) :
    (keys.foldl (fun st k => zadd st k sc oid) st).zsets key oid = some sc := by
  induction keys generalizing st with
  | nil => cases h
  | cons a l ih =>
    rw [List.foldl_cons]
    by_cases hmem : key ∈ l
    · exact ih hmem _
    · have hka : key = a := by
        rcases List.mem_cons.mp h with h1 | h1
        · exact h1
        · exact absurd h1 hmem
      subst hka
      rw [zaddFold_zsets_ne l sc oid key oid (fun k hk he => hmem (he ▸ hk)) _]
      exact zadd_zsets_self st key sc oid

lemma zremFold_keys_none (keys : List String) (oid key m : String) (st : RedisState)
    (h : st.zsets key m = none) :
    (keys.foldl (fun st k => zrem st k oid) st).zsets key m = none :=
  foldl_preserve (fun s => s.zsets key m = none)
    (fun s k hp => zrem_zsets_none s k oid key m hp) keys st h

lemma zremFold_keys_mem (keys : List String) (oid key : String)
    (h : key ∈ keys) (st : RedisState) :
    (keys.foldl (fun st k => zrem st k oid) st).zsets key oid = none := by
  induction keys generalizing st with
  | nil => cases h
  | cons a l ih =>
    rw [List.foldl_cons]
    by_cases hmem : key ∈ l
    · exact ih hmem _
    · have hka : key = a := by
        rcases List.mem_cons.mp h with h1 | h1
        · exact h1
        · exact absurd h1 hmem
      subst hka
      exact zremFold_keys_none l oid key oid _ (zrem_zsets_self st key oid)

lemma zremFold_members_none (ms : List String) (gk qk qm : String) (st : RedisState)
    (h : st.zsets qk qm = none) :
    (ms.foldl (fun st x => zrem st gk x) st).zsets qk qm = none :=
  foldl_preserve (fun s => s.zsets qk qm = none)
    (fun s x hp => zrem_zsets_none s gk x qk qm hp) ms st h

lemma zremFold_members_mem (ms : List String) (gk m : String)
    (h : m ∈ ms) (st : RedisState) :
    (ms.foldl (fun st x => zrem st gk x) st).zsets gk m = none := by
  induction ms generalizing st with
  | nil => cases h
  | cons a l ih =>
    rw [List.foldl_cons]
    by_cases hmem : m ∈ l
    · exact ih hmem _
    · have hma : m = a := by
        rcases List.mem_cons.mp h with h1 | h1
        · exact h1
        · exact absurd h1 hmem
      subst hma
      exact zremFold_members_none l gk gk m _ (zrem_zsets_self st gk m)

lemma delStringFold_none (ms : List String) (f : String → String) (key : String)
    (st : RedisState) (h : st.strings key = none) :
    (ms.foldl (fun st x => delString st (f x)) st).strings key = none :=
  foldl_preserve (fun s => s.strings key = none)
    (fun s x hp => delString_strings_none s (f x) key hp) ms st h

lemma delStringFold_mem (ms : List String) (f : String → String) (m : String)
    (h : m ∈ ms) (st : RedisState) :
    (ms.foldl (fun st x => delString st (f x)) st).strings (f m) = none := by
  induction ms generalizing st with
  | nil => cases h
  | cons a l ih =>
    rw [List.foldl_cons]
    by_cases hmem : m ∈ l
    · exact ih hmem _
    · have hma : m = a := by
        rcases List.mem_cons.mp h with h1 | h1
        · exact h1
        · exact absurd h1 hmem
      subst hma
      exact delStringFold_none l f (f m) _ (delString_strings_self st (f m))

lemma sremFold_not_mem (ms : List String) (g : String → String) (oid key : String)
    (st : RedisState) (h : oid ∉ st.sets key) :
    oid ∉ (ms.foldl (fun st x => srem st (g x) oid) st).sets key :=
  foldl_preserve (fun s => oid ∉ s.sets key)
    (fun s x hp => srem_not_mem s (g x) oid key oid hp) ms st h

lemma sremFold_mem (ms : List String) (g : String → String) (oid m : String)
    (h : m ∈ ms) (st : RedisState) :
    oid ∉ (ms.foldl (fun st x => srem st (g x) oid) st).sets (g m) := by
  induction ms generalizing st with
  | nil => cases h
  | cons a l ih =>
    rw [List.foldl_cons]
    by_cases hmem : m ∈ l
    · exact ih hmem _
    · have hma : m = a := by
        rcases List.mem_cons.mp h with h1 | h1
        · exact h1
        · exact absurd h1 hmem
      subst hma
      exact sremFold_not_mem l g oid (g m) _ (srem_not_mem_self st (g m) oid)

/-! ## Key discrimination

The per-asset index-set keys start with the character `s` (of `scope:`),
the chain-prefixed bookkeeping keys with `o` (of `orderbook:`); this keeps
the fold over the index sets away from the `active` sorted set. -/

lemma ne_of_data_head (a b : String) (h : a.data.head? ≠ b.data.head?) : a ≠ b :=
  fun he => h (by rw [he])

lemma head_append (a b : String) (c : Char) (h : a.data.head? = some c) :
    (a ++ b).data.head? = some c := by
  rw [String.data_append]
  cases hd : a.data with
  | nil => rw [hd] at h; simp at h
  | cons x xs =>
    rw [hd] at h
    simp only [List.head?_cons, Option.some.injEq] at h
    subst h
    rfl

lemma tokenListingsSet_head (c : TokenConstraints) :
    (getTokenListingsSet c).data.head? = some 's' := by
  unfold getTokenListingsSet
  apply head_append
  apply head_append
  apply head_append
  apply head_append
  apply head_append
  decide

lemma tokenOffersSet_head (c : TokenConstraints) :
    (getTokenOffersSet c).data.head? = some 's' := by
  unfold getTokenOffersSet
  apply head_append
  apply head_append
  apply head_append
  apply head_append
  apply head_append
  decide

lemma collectionTokenListingsSet_head (c : CollectionConstraints) :
    (getCollectionTokenListingsSet c).data.head? = some 's' := by
  unfold getCollectionTokenListingsSet
  apply head_append
  apply head_append
  apply head_append
  decide

lemma collectionTokenOffersSet_head (c : TokenConstraints) :
    (getCollectionTokenOffersSet c).data.head? = some 's' := by
  unfold getCollectionTokenOffersSet
  apply head_append
  apply head_append
  apply head_append
  decide

lemma collectionWideOffersSet_head (c : CollectionConstraints) :
    (getCollectionWideOffersSet c).data.head? = some 's' := by
  unfold getCollectionWideOffersSet
  apply head_append
  apply head_append
  apply head_append
  decide

lemma activeKey_head (c : String) :
    (activeOrdersOrderedSetKey c).data.head? = some 'o' := by
  unfold activeOrdersOrderedSetKey chainRoot
  apply head_append
  apply head_append
  apply head_append
  decide

/-- Every index-set key produced by `_getOrderItemSets` starts with `s`. -/
lemma getOrderItemSets_head (o : OrderData) (sets : List String) (score : ℚ)
    (h : getOrderItemSets o = .ok (sets, score)) :
    ∀ k ∈ sets, k.data.head? = some 's' := by
  obtain ⟨id, side, comp, cur, p, item, status⟩ := o
  cases side <;> cases item <;>
    simp only [getOrderItemSets, Except.ok.injEq, Prod.mk.injEq, reduceCtorEq] at h
  case buy.token coll tok =>
    obtain ⟨hsets, _⟩ := h
    subst hsets
    intro k hk
    simp only [List.mem_cons, List.not_mem_nil, or_false] at hk
    rcases hk with rfl | rfl
    · exact tokenOffersSet_head _
    · exact collectionTokenOffersSet_head _
  case buy.collectionWide coll =>
    obtain ⟨hsets, _⟩ := h
    subst hsets
    intro k hk
    simp only [List.mem_cons, List.not_mem_nil, or_false] at hk
    rcases hk with rfl
    exact collectionWideOffersSet_head _
  case sell.token coll tok =>
    obtain ⟨hsets, _⟩ := h
    subst hsets
    intro k hk
    simp only [List.mem_cons, List.not_mem_nil, or_false] at hk
    rcases hk with rfl | rfl
    · exact tokenListingsSet_head _
    · exact collectionTokenListingsSet_head _

lemma getOrderItemSets_ne_activeKey (o : OrderData) (sets : List String) (score : ℚ)
    (c : String) (h : getOrderItemSets o = .ok (sets, score)) :
    ∀ k ∈ sets, k ≠ activeOrdersOrderedSetKey c := by
  intro k hk
  apply ne_of_data_head
  rw [activeKey_head c, getOrderItemSets_head o sets score h k hk]
  decide

/-- The score returned by `_getOrderItemSets` is always `startPriceEth`. -/
lemma getOrderItemSets_score (o : OrderData) (sets : List String) (score : ℚ)
    (h : getOrderItemSets o = .ok (sets, score)) : score = o.startPriceEth := by
  obtain ⟨id, side, comp, cur, p, item, status⟩ := o
  cases side <;> cases item <;>
    simp only [getOrderItemSets, Except.ok.injEq, Prod.mk.injEq, reduceCtorEq] at h
  all_goals exact h.2.symm

/-! ## C2: the currency constraint and the per-asset index keys -/

def c2BuyWeth : OrderData :=
  { id := "0x1", side := .buy, complication := "0xcomp", currency := "0xweth",
    startPriceEth := 1, item := .token "0xcoll" "7", status := .active }

def c2BuyUsdc : OrderData :=
  { id := "0x2", side := .buy, complication := "0xcomp", currency := "0xusdc",
    startPriceEth := 1, item := .token "0xcoll" "7", status := .active }

/-- C2 (counterexample): two active buy orders that agree on side, asset
scope, complication, collection and tokenId but differ in currency are
indexed into exactly the same per-asset sorted sets — the key derivation
drops the currency constraint — so the derived index sets are not
distinct and the derivation is not injective in the currency component. -/
theorem index_sets_currency_counterexample :
    c2BuyWeth.currency ≠ c2BuyUsdc.currency
      ∧ getOrderItemSets c2BuyWeth = getOrderItemSets c2BuyUsdc
      ∧ getTokenOffersSet ⟨"0xcomp", "0xweth", "0xcoll", "7"⟩
          = getTokenOffersSet ⟨"0xcomp", "0xusdc", "0xcoll", "7"⟩ :=
  ⟨by decide, rfl, rfl⟩

/-- C2 (amended): the per-asset index-set key derivation ignores the
currency entirely — replacing an order's currency leaves every derived
index-set key (and the score) unchanged, for every side and scope, so
orders differing only in currency always share their per-asset sets. -/
theorem index_sets_ignore_currency (o : OrderData) (cur : String) :
    getOrderItemSets { o with currency := cur } = getOrderItemSets o
      ∧ (∀ c : TokenConstraints,
          getTokenListingsSet { c with currency := cur } = getTokenListingsSet c
            ∧ getTokenOffersSet { c with currency := cur } = getTokenOffersSet c
            ∧ getCollectionTokenOffersSet { c with currency := cur }
                = getCollectionTokenOffersSet c)
      ∧ ∀ c : CollectionConstraints,
          getCollectionTokenListingsSet { c with currency := cur }
              = getCollectionTokenListingsSet c
            ∧ getCollectionWideOffersSet { c with currency := cur }
                = getCollectionWideOffersSet c := by
  refine ⟨?_, fun c => ⟨rfl, rfl, rfl⟩, fun c => ⟨rfl, rfl⟩⟩
  obtain ⟨id, side, comp, cur0, p, item, status⟩ := o
  cases side <;> cases item <;> rfl

/-! ## Nonce provider lemmas -/

lemma saveNonceSchedule_signal (st : NPState) :
    (saveNonceSchedule st).signal = st.signal := by
  unfold saveNonceSchedule; split <;> rfl

lemma saveNonceSchedule_closed (st : NPState) :
    (saveNonceSchedule st).closed = st.closed := by
  unfold saveNonceSchedule; split <;> rfl

lemma saveNonceSchedule_nonceLoaded (st : NPState) :
    (saveNonceSchedule st).nonceLoaded = st.nonceLoaded := by
  unfold saveNonceSchedule; split <;> rfl

lemma saveNonceSchedule_nonce (st : NPState) :
    (saveNonceSchedule st).nonce = st.nonce := by
  unfold saveNonceSchedule; split <;> rfl

/-- The anatomy of a successful `getNonce`: the signal is set and not
aborted, the provider is not closed, the nonce is loaded, the in-memory
nonce was one less than the returned value, and the returned state carries
the returned value with a scheduled save. -/
lemma getNonce_ok_elim (st : NPState) (n : Int) (h : (getNonce st).1 = .ok n) :
    st.signal = some false ∧ st.closed = false ∧ st.nonceLoaded = true
      ∧ st.nonce = some (n - 1)
      ∧ (getNonce st).2 = saveNonceSchedule { st with nonce := some n } := by
  obtain ⟨sig, cl, nl, non, ps⟩ := st
  cases sig with
  | none => simp [getNonce, checkSignal] at h
  | some aborted =>
    cases aborted with
    | true => simp [getNonce, checkSignal] at h
    | false =>
      cases cl with
      | true => simp [getNonce, checkSignal] at h
      | false =>
        cases nl with
        | false => simp [getNonce, checkSignal] at h
        | true =>
          cases non with
          | none => simp [getNonce, checkSignal, incrementNonce] at h
          | some n0 =>
            have hn : n = n0 + 1 := by
              simp [getNonce, checkSignal, incrementNonce] at h
              omega
            subst hn
            refine ⟨rfl, rfl, rfl, ?_, rfl⟩
            simp only [Option.some.injEq]
            omega

/-- C4: under a held lease, two consecutive successful `getNonce()` calls
return n₁ then n₂ with n₂ = n₁ + 1; each call increments the in-memory
nonce by exactly 1 and returns the new value. -/
theorem getNonce_sequential (st : NPState) (n₁ n₂ : Int)
    (h1 : (getNonce st).1 = .ok n₁)
    (h2 : (getNonce (getNonce st).2).1 = .ok n₂) :
    n₂ = n₁ + 1 ∧ st.nonce = some (n₁ - 1) ∧ (getNonce st).2.nonce = some n₁ := by
  obtain ⟨hsig, hcl, hnl, hn, hst⟩ := getNonce_ok_elim st n₁ h1
  obtain ⟨_, _, _, hn2, _⟩ := getNonce_ok_elim _ n₂ h2
  rw [hst, saveNonceSchedule_nonce] at hn2 ⊢
  simp only [Option.some.injEq] at hn2
  exact ⟨by omega, hn, rfl⟩

def c4State : NPState :=
  { signal := some false, closed := false, nonceLoaded := true,
    nonce := some 5, pendingSave := false }

/-- Witness for C4 at a concrete running provider state with nonce 5: the
two consecutive calls return 6 and 7. -/
theorem getNonce_sequential_witness :
    (7 : Int) = 6 + 1 ∧ c4State.nonce = some (6 - 1)
      ∧ (getNonce c4State).2.nonce = some 6 :=
  getNonce_sequential c4State 6 7 rfl rfl

/-- C8 (amended part): after the lease is lost or the provider closed, no
`getNonce()` call succeeds and the state (hence the in-memory nonce) is
unchanged; an aborted signal yields `Nonce provider lock expired`, while a
closed provider with a live signal yields `Nonce provider closed`. -/
theorem getNonce_after_loss_or_close (st : NPState)
    (h : st.signal = some true ∨ st.closed = true) :
    (getNonce st).2 = st
      ∧ (∀ n, (getNonce st).1 ≠ .ok n)
      ∧ (st.signal = some true → (getNonce st).1 = .error "Nonce provider lock expired")
      ∧ (st.closed = true → st.signal = some false →
          (getNonce st).1 = .error "Nonce provider closed")
      ∧ (st.closed = true → st.signal = none →
          (getNonce st).1 = .error "Nonce provider lock expired") := by
  unfold getNonce checkSignal
  cases hsig : st.signal with
  | none => simp
  | some aborted =>
    cases aborted with
    | true => simp
    | false =>
      cases hcl : st.closed with
      | true => simp
      | false =>
        rcases h with h | h
        · rw [hsig] at h; exact absurd h (by simp)
        · exact absurd h (by simp [hcl])

def c8AbortedState : NPState :=
  { signal := some true, closed := false, nonceLoaded := true,
    nonce := some 5, pendingSave := false }

/-- Witness for C8 at a concrete state whose lease signal is aborted. -/
theorem getNonce_after_loss_witness :
    (getNonce c8AbortedState).2 = c8AbortedState
      ∧ (∀ n, (getNonce c8AbortedState).1 ≠ .ok n)
      ∧ (c8AbortedState.signal = some true →
          (getNonce c8AbortedState).1 = .error "Nonce provider lock expired")
      ∧ (c8AbortedState.closed = true → c8AbortedState.signal = some false →
          (getNonce c8AbortedState).1 = .error "Nonce provider closed")
      ∧ (c8AbortedState.closed = true → c8AbortedState.signal = none →
          (getNonce c8AbortedState).1 = .error "Nonce provider lock expired") :=
  getNonce_after_loss_or_close c8AbortedState (Or.inl rfl)

def c8ClosedState : NPState :=
  { signal := some false, closed := true, nonceLoaded := true,
    nonce := some 5, pendingSave := false }

/-- C8 (counterexample): a provider that was closed while its lease signal
is still live rejects with `Nonce provider closed`, which is not the
`Nonce provider lock expired` error the claim promises for every call
after loss *or close*; the state is unchanged. -/
theorem getNonce_closed_counterexample :
    (getNonce c8ClosedState).1 = .error "Nonce provider closed"
      ∧ "Nonce provider closed" ≠ "Nonce provider lock expired"
      ∧ (getNonce c8ClosedState).2 = c8ClosedState :=
  ⟨rfl, by decide, rfl⟩

/-- C10: with the abort signal never set (constructed instance on which
`run()` has not completed lock acquisition, including the contention path
where the redlock callback never runs), `getNonce()` always rejects with
`Nonce provider lock expired`, never returns a nonce, and leaves the state
unchanged. -/
theorem getNonce_without_lease (st : NPState) (h : st.signal = none) :
    (getNonce st).1 = .error "Nonce provider lock expired"
      ∧ (getNonce st).2 = st
      ∧ ∀ n, (getNonce st).1 ≠ .ok n := by
  unfold getNonce checkSignal
  rw [h]
  simp

/-- Witness for C10 at the state of a freshly constructed provider. -/
theorem getNonce_without_lease_witness :
    (getNonce initialNPState).1 = .error "Nonce provider lock expired"
      ∧ (getNonce initialNPState).2 = initialNPState
      ∧ ∀ n, (getNonce initialNPState).1 ≠ .ok n :=
  getNonce_without_lease initialNPState rfl

/-- C5: the effective starting nonce is the maximum of the persisted nonce
and the `userMinOrderNonce` watermark, with no +1 applied; when no record
exists, the record first written carries the watermark as its nonce and the
effective nonce equals the watermark; the in-memory nonce is set to the
effective value. -/
theorem loadNonce_effective_max (ci a e : String) (snap : Option NonceProviderDoc)
    (minNonce : Int) (now : Nat) :
    (∀ d, snap = some d →
        (loadNonce ci a e snap minNonce now).2 = max d.nonce minNonce)
      ∧ (snap = none →
          (loadNonce ci a e snap minNonce now).1.nonce = minNonce
            ∧ (loadNonce ci a e snap minNonce now).2 = minNonce)
      ∧ ∀ st : NPState,
          (loadNonceIntoState st ci a e snap minNonce now).nonce
            = some (loadNonce ci a e snap minNonce now).2 := by
  refine ⟨?_, ?_, fun st => rfl⟩
  · rintro d rfl
    unfold loadNonce
    dsimp only
    split
    · next h => exact (max_eq_right (le_of_lt h)).symm
    · next h => exact (max_eq_left (not_lt.mp h)).symm
  · rintro rfl
    unfold loadNonce
    dsimp only
    constructor
    · rfl
    · split
      · next h => exact absurd h (lt_irrefl _)
      · rfl

def c5Doc : NonceProviderDoc :=
  { chainId := "1", matchExecutorAddress := "0xacc", exchangeAddress := "0xexch",
    nonce := 3, updatedAt := 0, createdAt := 0 }

/-- Witness for C5: with a persisted nonce of 3 and a watermark of 7 the
effective nonce is max 3 7 = 7; with no record the record written and the
effective nonce both carry the watermark 7. -/
theorem loadNonce_effective_max_witness :
    ((loadNonce "1" "0xacc" "0xexch" (some c5Doc) 7 0).2 = max c5Doc.nonce 7)
      ∧ ((loadNonce "1" "0xacc" "0xexch" none 7 0).1.nonce = 7
          ∧ (loadNonce "1" "0xacc" "0xexch" none 7 0).2 = 7)
      ∧ max c5Doc.nonce (7 : Int) = 7 :=
  ⟨(loadNonce_effective_max "1" "0xacc" "0xexch" (some c5Doc) 7 0).1 c5Doc rfl,
   (loadNonce_effective_max "1" "0xacc" "0xexch" none 7 0).2.1 rfl,
   by decide⟩

/-- C6 (code contradicts its stated intent): with forking disabled — the
flashbots production path, where the returned record says
`isFlashbotsEnabled = true` and carries flashbots options with block
offset 2 — the source still constructs the direct JSON-RPC
`ForkedNetworkBroadcaster` (the branch carries a `TODO add flashbots`
comment), not the private-mempool relay broadcaster the claim selects. -/
theorem broadcaster_direct_on_flashbots_path :
    (getNetworkConfig false).isFlashbotsEnabled = true
      ∧ (getNetworkConfig false).isForkingEnabled = false
      ∧ (getNetworkConfig false).flashbots = some { blockOffset := 2 }
      ∧ (getNetworkConfig false).broadcaster = .forkedNetwork
      ∧ (getNetworkConfig false).broadcaster ≠ .flashbotsRelay
      ∧ (getNetworkConfig true).broadcaster = .forkedNetwork := by
  refine ⟨rfl, rfl, rfl, rfl, ?_, rfl⟩
  intro h
  simp [getNetworkConfig] at h

/-- C9: in the default enablement table, seaport:single-token is the only
(marketplace, kind) pair that is enabled (and the only one with a
builder); infinity is fully present — all three of its kinds have entries
— with every kind disabled; every other marketplace has its
marketplace-level flag disabled (only infinity and seaport are enabled at
that level) and no further kind is enabled anywhere. -/
theorem marketplace_enablement_default :
    (∀ m k, kindEnabledWithBuilder m k = true ↔ (m = .seaport ∧ k = .singleToken))
      ∧ (∀ m k, kindEnabled m k = true ↔ (m = .seaport ∧ k = .singleToken))
      ∧ ((kindEntry .infinity .singleToken).isSome = true
          ∧ (kindEntry .infinity .contractWide).isSome = true
          ∧ (kindEntry .infinity .complex).isSome = true)
      ∧ (∀ k, kindEnabled .infinity k = false)
      ∧ (∀ m, marketEnabled m = true ↔ (m = .infinity ∨ m = .seaport)) := by
  decide

/-! ## C3: saving an active order populates every index -/

/-- C3: after saving an order with status = active, the order id is in the
`orders` set, in the `active` sorted set with the sentinel score −1, the
full payload is stored under `orders:{id}:full`, and the id is in every
per-asset sorted set returned by the index-sets derivation, scored by
`startPriceEth`. -/
theorem save_active_order_indexed (c : String) (s : RedisState) (o : OrderData)
    (sets : List String) (score : ℚ) (st : RedisState)
    (hactive : o.status = .active)
    (hsets : getOrderItemSets o = .ok (sets, score))
    (hsave : saveOne c s o = .ok st) :
    score = o.startPriceEth
      ∧ o.id ∈ st.sets (storedOrdersSetKey c)
      ∧ st.zsets (activeOrdersOrderedSetKey c) o.id = some (-1)
      ∧ st.strings (getFullOrderKey c o.id) = some (serializeOrder o)
      ∧ ∀ k ∈ sets, st.zsets k o.id = some score := by
  have hst : st = applyActiveWrites c s o sets score := by
    unfold saveOne at hsave
    rw [hsets] at hsave
    dsimp only at hsave
    rw [if_pos hactive] at hsave
    injection hsave with h
    exact h.symm
  subst hst
  refine ⟨getOrderItemSets_score o sets score hsets, ?_, ?_, ?_, ?_⟩
  · unfold applyActiveWrites
    rw [foldl_sets_congr (fun st x => zadd_sets st x score o.id)]
    exact mem_sadd_self s (storedOrdersSetKey c) o.id
  · unfold applyActiveWrites
    rw [zaddFold_zsets_ne sets score o.id (activeOrdersOrderedSetKey c) o.id
      (getOrderItemSets_ne_activeKey o sets score c hsets), setString_zsets]
    exact zadd_zsets_self _ _ _ _
  · unfold applyActiveWrites
    rw [foldl_strings_congr (fun st x => zadd_strings st x score o.id)]
    exact setString_strings_self _ _ _
  · intro k hk
    unfold applyActiveWrites
    exact zaddFold_zsets_mem sets score o.id k hk _

def emptyRedis : RedisState :=
  { sets := fun _ => [], zsets := fun _ _ => none, strings := fun _ => none }

def c3Order : OrderData :=
  { id := "0xo1", side := .buy, complication := "0xcomp", currency := "0xweth",
    startPriceEth := 2, item := .token "0xcoll" "5", status := .active }

def c3Sets : List String :=
  [getTokenOffersSet ⟨"0xcomp", "0xweth", "0xcoll", "5"⟩,
   getCollectionTokenOffersSet ⟨"0xcomp", "0xweth", "0xcoll", "5"⟩]

def c3After : RedisState := applyActiveWrites "1" emptyRedis c3Order c3Sets 2

/-- Witness for C3: saving a concrete active token offer into an empty
store puts it into `orders`, `active` (score −1), the full-payload key and
both per-asset sets (score 2). -/
theorem save_active_order_indexed_witness :
    (2 : ℚ) = c3Order.startPriceEth
      ∧ c3Order.id ∈ c3After.sets (storedOrdersSetKey "1")
      ∧ c3After.zsets (activeOrdersOrderedSetKey "1") c3Order.id = some (-1)
      ∧ c3After.strings (getFullOrderKey "1" c3Order.id) = some (serializeOrder c3Order)
      ∧ ∀ k ∈ c3Sets, c3After.zsets k c3Order.id = some 2 :=
  save_active_order_indexed "1" emptyRedis c3Order c3Sets 2 c3After rfl rfl rfl

/-! ## C7: sell collection-wide orders are rejected without writes -/

/-- C7: saving a sell order with collection-wide scope is rejected as
unsupported: the index-sets derivation throws `Unsupported order side`
before any write is queued, so the store is unchanged for that entry, and
the batch continues with the remaining entries. -/
theorem save_sell_collection_rejected (c : String) (s : RedisState) (o : OrderData)
    (coll : String) (rest : List OrderData)
    (hside : o.side = .sell) (hitem : o.item = .collectionWide coll) :
    getOrderItemSets o = .error "Unsupported order side"
      ∧ saveOne c s o = .error "Unsupported order side"
      ∧ save c s (o :: rest) = save c s rest
      ∧ save c s [o] = s := by
  have herr : getOrderItemSets o = .error "Unsupported order side" := by
    obtain ⟨id, side, comp, cur, p, item, status⟩ := o
    dsimp only at hside hitem
    subst hside
    subst hitem
    rfl
  have hone : saveOne c s o = .error "Unsupported order side" := by
    unfold saveOne
    rw [herr]
  refine ⟨herr, hone, ?_, ?_⟩
  · simp only [save, List.foldl_cons, hone]
  · simp only [save, List.foldl_cons, List.foldl_nil, hone]

def c7Bad : OrderData :=
  { id := "0xbad", side := .sell, complication := "0xcomp", currency := "0xweth",
    startPriceEth := 1, item := .collectionWide "0xcoll", status := .active }

def c7Good : OrderData :=
  { id := "0xgood", side := .buy, complication := "0xcomp", currency := "0xweth",
    startPriceEth := 1, item := .token "0xcoll" "5", status := .active }

/-- Witness for C7 at a concrete collection-wide sell order in a batch with
a following good entry: the entry errors, the store is unchanged for it,
and the batch equals the batch without it. -/
theorem save_sell_collection_rejected_witness :
    getOrderItemSets c7Bad = .error "Unsupported order side"
      ∧ saveOne "1" emptyRedis c7Bad = .error "Unsupported order side"
      ∧ save "1" emptyRedis (c7Bad :: [c7Good]) = save "1" emptyRedis [c7Good]
      ∧ save "1" emptyRedis [c7Bad] = emptyRedis :=
  save_sell_collection_rejected "1" emptyRedis c7Bad "0xcoll" [c7Good] rfl rfl

/-! ## C1: saving a non-active order removes it and cascades over matches -/

/-- C1 (amended): after saving a non-active order whose index-set
derivation succeeds, the order id is removed from `orders`, `active`, its
full payload and every per-asset set; for each match id m previously in
`order-matches:{id}`, the full match `order-matches:{m}:full` is deleted,
m is removed from the `matches-by-gas-price` sorted set, and the order id
is removed from the set `order-matches:{m}` — a key derived from the match
id, not from the counterpart order's id — and finally `order-matches:{id}`
is deleted.  (The counterpart order's own match set is not touched; see
the counterexample.) -/
theorem save_inactive_removes_and_cascades (c : String) (s : RedisState)
    (o : OrderData) (sets : List String) (score : ℚ) (st : RedisState)
    (hinactive : o.status ≠ .active)
    (hsets : getOrderItemSets o = .ok (sets, score))
    (hsave : saveOne c s o = .ok st) :
    st.sets (getOrderMatchesSet c o.id) = []
      ∧ o.id ∉ st.sets (storedOrdersSetKey c)
      ∧ st.zsets (activeOrdersOrderedSetKey c) o.id = none
      ∧ st.strings (getFullOrderKey c o.id) = none
      ∧ (∀ k ∈ sets, st.zsets k o.id = none)
      ∧ ∀ m ∈ s.sets (getOrderMatchesSet c o.id),
          st.strings (getFullMatchKey c m) = none
            ∧ st.zsets (matchesByGasPriceOrderedSetKey c) m = none
            ∧ o.id ∉ st.sets (getOrderMatchesSet c m) := by
  have hst : st = applyRemovalWrites c s o sets := by
    unfold saveOne at hsave
    rw [hsets] at hsave
    dsimp only at hsave
    rw [if_neg hinactive] at hsave
    injection hsave with h
    exact h.symm
  subst hst
  unfold applyRemovalWrites
  refine ⟨delSet_sets_self _ _, ?_, ?_, ?_, ?_, ?_⟩
  · apply delSet_not_mem
    apply sremFold_not_mem
    rw [foldl_sets_congr (fun st x => zrem_sets st (matchesByGasPriceOrderedSetKey c) x),
      foldl_sets_congr (fun st x => delString_sets st (getFullMatchKey c x)),
      foldl_sets_congr (fun st x => zrem_sets st x o.id)]
    exact srem_not_mem_self s (storedOrdersSetKey c) o.id
  · rw [delSet_zsets,
      foldl_zsets_congr (fun st x => srem_zsets st (getOrderMatchesSet c x) o.id)]
    apply zremFold_members_none
    rw [foldl_zsets_congr (fun st x => delString_zsets st (getFullMatchKey c x))]
    apply zremFold_keys_none
    exact zrem_zsets_self _ _ _
  · rw [delSet_strings,
      foldl_strings_congr (fun st x => srem_strings st (getOrderMatchesSet c x) o.id),
      foldl_strings_congr
        (fun st x => zrem_strings st (matchesByGasPriceOrderedSetKey c) x)]
    apply delStringFold_none
    rw [foldl_strings_congr (fun st x => zrem_strings st x o.id)]
    exact delString_strings_self _ _
  · intro k hk
    rw [delSet_zsets,
      foldl_zsets_congr (fun st x => srem_zsets st (getOrderMatchesSet c x) o.id)]
    apply zremFold_members_none
    rw [foldl_zsets_congr (fun st x => delString_zsets st (getFullMatchKey c x))]
    exact zremFold_keys_mem sets o.id k hk _
  · intro m hm
    refine ⟨?_, ?_, ?_⟩
    · rw [delSet_strings,
        foldl_strings_congr (fun st x => srem_strings st (getOrderMatchesSet c x) o.id),
        foldl_strings_congr
          (fun st x => zrem_strings st (matchesByGasPriceOrderedSetKey c) x)]
      exact delStringFold_mem _ (fun x => getFullMatchKey c x) m hm _
    · rw [delSet_zsets,
        foldl_zsets_congr (fun st x => srem_zsets st (getOrderMatchesSet c x) o.id)]
      exact zremFold_members_mem _ (matchesByGasPriceOrderedSetKey c) m hm _
    · apply delSet_not_mem
      exact sremFold_mem _ (fun x => getOrderMatchesSet c x) o.id m hm _

def c1State : RedisState :=
  { sets := fun k =>
      if k = getOrderMatchesSet "1" "0xa" then ["0xm"]
      else if k = getOrderMatchesSet "1" "0xb" then ["0xm"]
      else [],
    zsets := fun k m =>
      if k = matchesByGasPriceOrderedSetKey "1" ∧ m = "0xm" then some 5 else none,
    strings := fun k =>
      if k = getFullMatchKey "1" "0xm" then some "full-match" else none }

def c1Cancelled : OrderData :=
  { id := "0xa", side := .buy, complication := "0xcomp", currency := "0xweth",
    startPriceEth := 1, item := .token "0xcoll" "5", status := .cancelled }

def c1After : RedisState :=
  match saveOne "1" c1State c1Cancelled with
  | .ok st => st
  | .error _ => c1State

def c1Sets : List String :=
  [getTokenOffersSet ⟨"0xcomp", "0xweth", "0xcoll", "5"⟩,
   getCollectionTokenOffersSet ⟨"0xcomp", "0xweth", "0xcoll", "5"⟩]

/-- C1 (counterexample): order `0xa` has the match `0xm` with counterpart
order `0xb`; both `order-matches:{0xa}` and `order-matches:{0xb}` contain
`0xm`.  After saving `0xa` as cancelled, `0xm` is still a member of the
counterpart's set `order-matches:{0xb}` — the cascade `srem`s the order id
from `order-matches:{0xm}` (keyed by the match id) instead of removing the
match from the counterpart's set, so a residual index entry remains. -/
theorem save_inactive_counterpart_counterexample :
    c1Cancelled.status ≠ .active
      ∧ saveOne "1" c1State c1Cancelled = .ok c1After
      ∧ "0xm" ∈ c1State.sets (getOrderMatchesSet "1" "0xa")
      ∧ "0xm" ∈ c1State.sets (getOrderMatchesSet "1" "0xb")
      ∧ "0xm" ∈ c1After.sets (getOrderMatchesSet "1" "0xb") :=
  ⟨by decide, rfl, by decide, by decide, by decide⟩

/-- Witness for the amended C1 at the concrete cancelled order `0xa` with
match `0xm`: `order-matches:{0xa}` is deleted, the id leaves `orders`,
`active` and the per-asset sets, the full order and full match are gone,
`0xm` leaves the gas-price set, and `0xa` is absent from
`order-matches:{0xm}`. -/
theorem save_inactive_removes_witness :
    c1After.sets (getOrderMatchesSet "1" c1Cancelled.id) = []
      ∧ c1Cancelled.id ∉ c1After.sets (storedOrdersSetKey "1")
      ∧ c1After.zsets (activeOrdersOrderedSetKey "1") c1Cancelled.id = none
      ∧ c1After.strings (getFullOrderKey "1" c1Cancelled.id) = none
      ∧ (∀ k ∈ c1Sets, c1After.zsets k c1Cancelled.id = none)
      ∧ ∀ m ∈ c1State.sets (getOrderMatchesSet "1" c1Cancelled.id),
          c1After.strings (getFullMatchKey "1" m) = none
            ∧ c1After.zsets (matchesByGasPriceOrderedSetKey "1") m = none
            ∧ c1Cancelled.id ∉ c1After.sets (getOrderMatchesSet "1" m) :=
  save_inactive_removes_and_cascades "1" c1State c1Cancelled c1Sets 1 c1After
    (by decide) rfl rfl

end MatchingEngine
